import Mathlib

/-!
Verification of the TraitSharp benchmark report generator
(`reports/generate-report.py` and `reports/regenerate-data.py`).

Shallow embedding conventions:
* Python floats are modelled as exact rationals (`ℚ`); `round(x, k)` is
  modelled as rounding `x * 10^k` to the nearest integer.  IEEE-754
  representation error and banker's tie-breaking are abstracted away; none
  of the properties checked here involves a tie or a representation gap.
* Python's `float(str)` is modelled by `pyFloat`, covering finite decimal
  literals (optional sign, digits, decimal point, optional exponent,
  surrounding whitespace).  Exotic forms accepted by CPython
  (`inf`, `nan`, digit underscores) are mapped to `none`; no input
  relevant to the claims uses them.
* A function that can raise an uncaught Python exception is modelled in
  `Except Unit`, `.error ()` standing for the raised exception.
* Python `dict` built by a comprehension over a list is modelled by
  `dictGet` (last binding wins); a `for`/`break` search is modelled by
  `List.find?` (first match wins), mirroring the source exactly.
-/

deriving instance DecidableEq for Except

attribute [local semireducible] Rat.mul Rat.inv Rat.add Rat.sub Rat.ofScientific

/-- Whitespace test used by the model of Python `str.strip()` / `float()`. -/
def isWS (c : Char) : Bool :=
  c = ' ' ∨ c = '\t' ∨ c = '\n' ∨ c = '\r' ∨ c = '\x0b' ∨ c = '\x0c'

/-- Model of Python `str.strip()`: drop whitespace from both ends. -/
def trimWS (l : List Char) : List Char :=
  ((l.dropWhile isWS).reverse.dropWhile isWS).reverse

/-- Does `p` occur at the start of `s`? (character-list matcher). -/
def startsWithL : List Char → List Char → Bool
  | [], _ => true
  | _ :: _, [] => false
  | p :: ps, c :: cs => p = c && startsWithL ps cs

/-- Does `sfx` occur at the end of `s`? -/
def endsWithL (sfx s : List Char) : Bool :=
  startsWithL sfx.reverse s.reverse

/-- If `pat` occurs at the start of `s`, return the remainder of `s`. -/
def stripPat : List Char → List Char → Option (List Char)
  | [], s => some s
  | _ :: _, [] => none
  | p :: ps, c :: cs => if p = c then stripPat ps cs else none

/-- Fuelled worker for `replaceAll`; the fuel bounds the number of scanned
positions, so `s.length` is always enough. -/
def replHelp (pat rep : List Char) : Nat → List Char → List Char
  | _, [] => []
  | 0, s => s
  | n + 1, c :: rest =>
    match stripPat pat (c :: rest) with
    | some r => rep ++ replHelp pat rep n r
    | none => c :: replHelp pat rep n rest

/-- Model of Python `str.replace(pat, rep)` for a non-empty `pat`
(every pattern used by the source is non-empty). -/
def replaceAll (pat rep s : List Char) : List Char :=
  if pat.isEmpty then s else replHelp pat rep s.length s

/-- Decimal digit value of a character, if any. -/
def digitVal (c : Char) : Option Nat :=
  if '0' ≤ c ∧ c ≤ '9' then some (c.toNat - '0'.toNat) else none

/-- Longest run of decimal digits at the head of the list, plus the rest. -/
def readDigits : List Char → (List Nat × List Char)
  | [] => ([], [])
  | c :: rest =>
    match digitVal c with
    | some d =>
      let (ds, r) := readDigits rest
      (d :: ds, r)
    | none => ([], c :: rest)

/-- Value of a big-endian digit list. -/
def natOfDigits (ds : List Nat) : Nat :=
  ds.foldl (fun a d => a * 10 + d) 0

/-- Exponent part of a float literal: given the remaining characters and the
mantissa value, finish parsing (model of the `e`/`E` tail of `float(str)`). -/
def readExp (rest : List Char) (mant : ℚ) : Option ℚ :=
  match rest with
  | [] => some mant
  | c :: r =>
    if c = 'e' ∨ c = 'E' then
      let (esign, r1) : ℤ × List Char :=
        match r with
        | '+' :: rr => (1, rr)
        | '-' :: rr => (-1, rr)
        | _ => (1, r)
      let (eds, r2) := readDigits r1
      if eds.isEmpty ∨ ¬ r2.isEmpty then none
      else some (mant * (10 : ℚ) ^ (esign * (natOfDigits eds : ℤ)))
    else none

/-- Model of CPython `float(str)` on finite decimal literals: optional
surrounding whitespace, optional sign, digits with optional fraction
(at least one digit overall), optional exponent.  `inf`/`nan`/underscore
forms are not modelled (they never occur in the benchmark data). -/
def pyFloat (l : List Char) : Option ℚ :=
  let t := trimWS l
  let (sign, t1) : ℚ × List Char :=
    match t with
    | '+' :: r => (1, r)
    | '-' :: r => (-1, r)
    | _ => (1, t)
  let (ids, t2) := readDigits t1
  match t2 with
  | '.' :: r =>
    let (fds, t3) := readDigits r
    if ids.isEmpty ∧ fds.isEmpty then none
    else readExp t3 (sign * ((natOfDigits ids : ℚ) + (natOfDigits fds : ℚ) / (10 : ℚ) ^ fds.length))
  | _ =>
    if ids.isEmpty then none
    else readExp t2 (sign * (natOfDigits ids : ℚ))

/-- Model of Python `int(float)`: truncation toward zero. -/
def pyTrunc (q : ℚ) : ℤ :=
  if 0 ≤ q then ⌊q⌋ else ⌈q⌉

/-- Model of Python `round(x, 3)` over exact rationals. -/
def round3 (q : ℚ) : ℚ :=
  ((round (q * 1000) : ℤ) : ℚ) / 1000

/-- Model of the Python format `"{:.2f}".format(q)` over exact rationals
(nearest-integer rounding of `q * 100`). -/
def fmtF2 (q : ℚ) : String :=
  let n : ℤ := round (q * 100)
  let sign := if n < 0 then "-" else ""
  let a := n.natAbs
  sign ++ toString (a / 100) ++ "." ++ (if a % 100 < 10 then "0" else "") ++ toString (a % 100)

/-- Model of the Python format `"{:+.1f}".format(q)` over exact rationals. -/
def fmtPlus1 (q : ℚ) : String :=
  let sign := if q < 0 then "-" else "+"
  let a := (round (|q| * 10)).toNat
  sign ++ toString (a / 10) ++ "." ++ toString (a % 10)

/-- Micro sign `µ` (U+00B5) followed by `s`. -/
def muPat1 : List Char := [Char.ofNat 181, 's']

/-- Greek small mu `μ` (U+03BC) followed by `s`. -/
def muPat2 : List Char := [Char.ofNat 956, 's']

/-- Normalisation done by `parse_us` before the suffix loop
(`generate-report.py` lines 181–183): remove all commas, strip
whitespace, then rewrite both Unicode micro renderings of `µs` to `us`. -/
def normalize_us (s : String) : List Char :=
  replaceAll muPat2 ['u', 's']
    (replaceAll muPat1 ['u', 's'] (trimWS (s.data.filter (fun c => c != ','))))

/-- Unit-suffix table of `parse_us` in source order (`generate-report.py`
line 184): `" us"`, `" ns"`, `" ms"`, `" s"` with their factors to
microseconds. -/
def unitTable : List (List Char × ℚ) :=
  [([' ', 'u', 's'], 1), ([' ', 'n', 's'], 1 / 1000),
   ([' ', 'm', 's'], 1000), ([' ', 's'], 1000000)]

/-- First entry of a suffix table that matches the end of `s`, returning the
magnitude part (`s[:-len(suffix)]`) and the factor. -/
def findSfxIn : List (List Char × ℚ) → List Char → Option (List Char × ℚ)
  | [], _ => none
  | (sfx, f) :: rest, s =>
    if endsWithL sfx s then some (s.take (s.length - sfx.length), f)
    else findSfxIn rest s

/-- Suffix lookup of `parse_us` (the `for suffix in [...]` loop). -/
def findSfx (s : List Char) : Option (List Char × ℚ) :=
  findSfxIn unitTable s

/-- Core of `parse_us` after normalisation: suffix branch (whose `float`
call may raise) or the guarded bare-numeric fallback. -/
def parseCoreUs (s : List Char) : Except Unit (Option ℚ) :=
  match findSfx s with
  | some (mag, f) =>
    match pyFloat mag with
    | some v => .ok (some (round3 (v * f)))
    | none => .error ()
  | none =>
    match pyFloat s with
    | some v => .ok (some (round3 v))
    | none => .ok none

/-- Model of `parse_us` (`generate-report.py` lines 178–197).  `.error ()`
models an uncaught `ValueError` escaping to the caller; `.ok none`
models `None`. -/
def parse_us (s : String) : Except Unit (Option ℚ) :=
  if s = "" ∨ s = "NA" ∨ s = "N/A" then .ok none
  else parseCoreUs (normalize_us s)

/-- Model of `parse_bytes` (`generate-report.py` lines 199–210).  The `" B"`
test comes before `" KB"` exactly as in the source; only the unsuffixed
fallback guards its `float` call. -/
def parse_bytes (s : String) : Except Unit ℤ :=
  if s = "" ∨ s = "-" ∨ s = "NA" then .ok 0
  else
    let t := trimWS s.data
    if endsWithL [' ', 'B'] t then
      match pyFloat (t.take (t.length - 2)) with
      | some v => .ok (pyTrunc v)
      | none => .error ()
    else if endsWithL [' ', 'K', 'B'] t then
      match pyFloat (t.take (t.length - 3)) with
      | some v => .ok (pyTrunc (v * 1024))
      | none => .error ()
    else
      match pyFloat t with
      | some v => .ok (pyTrunc v)
      | none => .ok 0

/-- Per-method record of a snapshot JSON document (the dictionaries built at
`generate-report.py` lines 252–262).  Measurements are absent-safe. -/
structure Method where
  name : String
  label : String
  codeSnippet : String
  isBaseline : Bool
  mean_us : Option ℚ
  error_us : Option ℚ
  stddev_us : Option ℚ
  gbPerSec : Option ℚ
  allocated : ℤ
deriving DecidableEq

/-- Comparison group of a snapshot document (lines 263–269). -/
structure CompGroup where
  id : String
  name : String
  description : String
  baseline : String
  methods : List Method
deriving DecidableEq

/-- One benchmark class of a snapshot corpus, keyed by `className`
(the dictionaries returned by `load_data_files`). -/
structure ClassData where
  className : String
  comparisonGroups : List CompGroup
deriving DecidableEq

/-- Model of lookup in a Python dict built by a comprehension over a list
(`{key x: x for x in l}` followed by `.get k`): the LAST binding of a key
wins. -/
def dictGet {α : Type} (key : α → String) (l : List α) (k : String) : Option α :=
  l.reverse.find? (fun x => key x == k)

/-- Model of the `for m in methods: if m name == k: take mean; break` search
used for the in-group baseline mean (first match wins, missing mean stays
`None`). -/
def firstMean (l : List Method) (k : String) : Option ℚ :=
  (l.find? (fun m => m.name == k)).bind (·.mean_us)

/-- Worker for the `seen`-set deduplication loop of
`html_data_table_regression` (lines 528–533). -/
def dedupAux : List String → List String → List String
  | _, [] => []
  | seen, x :: xs =>
    if seen.contains x then dedupAux seen xs
    else x :: dedupAux (x :: seen) xs

/-- Merged method-name order of `html_data_table_regression`: latest names
followed by baseline names, first occurrence kept (lines 528–533). -/
def mergedNames (lt bl : List Method) : List String :=
  dedupAux [] ((lt ++ bl).map (·.name))

/-- Model of `compute_ratio` (`generate-report.py` lines 429–439), returning
the pair `(ratio_str, css_class)` exactly as the source builds it. -/
def compute_ratio (method_mean baseline_mean : Option ℚ) : String × String :=
  match method_mean, baseline_mean with
  | some m, some b =>
    if b = 0 then ("—", "neutral")
    else
      let ratio := m / b
      if |ratio - 1| < 15 / 1000 then ("1.00x", "neutral")
      else if ratio < 1 then (fmtF2 (1 / ratio) ++ "x faster", "faster")
      else (fmtF2 ratio ++ "x slower", "slower")
  | _, _ => ("—", "neutral")

/-- In-group baseline mean taken from the LATEST group (lines 536–541):
first method whose name equals the group's `baseline` field. -/
def groupBaselineMean (gl : CompGroup) : Option ℚ :=
  firstMean gl.methods gl.baseline

/-- Computed fields of one row of the regression table (lines 555–601);
the HTML wrapper around these strings is presentation only. -/
structure RegRow where
  rname : String
  label : String
  bl_mean : Option ℚ
  lt_mean : Option ℚ
  delta_class : String
  delta_str : String
  pct_str : String
  ratio_str : String
  ratio_class : String
  tr_baseline : Bool
deriving DecidableEq

/-- Temporal-delta columns of one regression row (`generate-report.py`
lines 563–582): the triple `(delta_class, delta_str, pct_str)`, with the
±1.5 colour thresholds and the `pct = 0` fallback for a zero baseline
mean. -/
def temporal_fields (bl_mean lt_mean : Option ℚ) : String × String × String :=
  match bl_mean, lt_mean with
  | some b, some c =>
    let delta := c - b
    let pct := if b ≠ 0 then delta / b * 100 else 0
    if pct < -(3 / 2) then ("delta-positive", fmtPlus1 delta, fmtPlus1 pct ++ "%")
    else if pct > 3 / 2 then ("delta-negative", fmtPlus1 delta, fmtPlus1 pct ++ "%")
    else ("neutral", fmtPlus1 delta, fmtPlus1 pct ++ "%")
  | _, _ => ("neutral", "—", "—")

/-- Row computation of `html_data_table_regression` for one merged name
(lines 555–601). -/
def regression_row (gb gl : CompGroup) (n : String) : RegRow :=
  let bl := dictGet (·.name) gb.methods n
  let lt := dictGet (·.name) gl.methods n
  let label :=
    match lt with
    | some m => m.label
    | none =>
      match bl with
      | some m => m.label
      | none => n
  let bl_mean := bl.bind (·.mean_us)
  let lt_mean := lt.bind (·.mean_us)
  let is_gb := n = gl.baseline
  let tri := temporal_fields bl_mean lt_mean
  let rpair : String × String :=
    if is_gb then ("baseline", "neutral")
    else compute_ratio lt_mean (groupBaselineMean gl)
  { rname := n, label := label, bl_mean := bl_mean, lt_mean := lt_mean,
    delta_class := tri.1, delta_str := tri.2.1, pct_str := tri.2.2,
    ratio_str := rpair.1, ratio_class := rpair.2, tr_baseline := is_gb }

/-- Model of `html_data_table_regression` (lines 518–608): the list of
computed rows in merged order. -/
def html_data_table_regression (gb gl : CompGroup) : List RegRow :=
  (mergedNames gl.methods gb.methods).map (regression_row gb gl)

/-- Computed fields of one row of the public table (lines 469–486). -/
structure PubRow where
  label : String
  ratio_str : String
  ratio_class : String
  tr_baseline : Bool
deriving DecidableEq

/-- Row computation of `html_data_table_public` (lines 454–487): ratio
against the group's first baseline-named method, overridden to the literal
`baseline` tag when the method's own `isBaseline` flag is set. -/
def public_row (g : CompGroup) (m : Method) : PubRow :=
  let baseline_mean := firstMean g.methods g.baseline
  let rp := compute_ratio m.mean_us baseline_mean
  if m.isBaseline then
    { label := m.label, ratio_str := "baseline", ratio_class := "neutral", tr_baseline := true }
  else
    { label := m.label, ratio_str := rp.1, ratio_class := rp.2, tr_baseline := false }

/-- Model of `html_data_table_public`: one row per method in group order. -/
def html_data_table_public (g : CompGroup) : List PubRow :=
  g.methods.map (public_row g)

/-- Summary pair of `generate_regression_report`: the `regressions` and
`improvements` lists (labels with their temporal delta percent). -/
abbrev SummaryPair := List (String × ℚ) × List (String × ℚ)

/-- Contribution of one latest method to the summary lists
(`generate-report.py` lines 721–729).  The division by `bl_mean` is
unguarded in the source, so a present baseline mean of `0` raises
`ZeroDivisionError`, modelled as `.error ()`. -/
def summary_method (bl_methods : List Method) (m : Method) : Except Unit SummaryPair :=
  match dictGet (·.name) bl_methods m.name with
  | none => .ok ([], [])
  | some blm =>
    match blm.mean_us, m.mean_us with
    | some b, some c =>
      if b = 0 then .error ()
      else
        let pct := (c - b) / b * 100
        if pct > 5 then .ok ([(m.label, pct)], [])
        else if pct < -5 then .ok ([], [(m.label, pct)])
        else .ok ([], [])
    | _, _ => .ok ([], [])

/-- Summary contributions of all methods of one latest group, in order. -/
def summary_methods (bl_methods : List Method) : List Method → Except Unit SummaryPair
  | [] => .ok ([], [])
  | m :: rest => do
    let p ← summary_method bl_methods m
    let q ← summary_methods bl_methods rest
    .ok (p.1 ++ q.1, p.2 ++ q.2)

/-- Summary contribution of one latest group: skipped entirely when the
baseline class has no group with the same id (lines 717–719). -/
def summary_group (bl_groups : List CompGroup) (g : CompGroup) : Except Unit SummaryPair :=
  match dictGet (·.id) bl_groups g.id with
  | none => .ok ([], [])
  | some bg => summary_methods bg.methods g.methods

/-- Summary contributions of all groups of one latest class, in order. -/
def summary_groups (bl_groups : List CompGroup) : List CompGroup → Except Unit SummaryPair
  | [] => .ok ([], [])
  | g :: rest => do
    let p ← summary_group bl_groups g
    let q ← summary_groups bl_groups rest
    .ok (p.1 ++ q.1, p.2 ++ q.2)

/-- Summary contribution of one latest class: skipped when the baseline
corpus has no class of that name (lines 711–714). -/
def summary_class (baseline : List ClassData) (c : ClassData) : Except Unit SummaryPair :=
  match dictGet (·.className) baseline c.className with
  | none => .ok ([], [])
  | some b => summary_groups b.comparisonGroups c.comparisonGroups

/-- Cross-class regression/improvement summary of
`generate_regression_report` (lines 709–729): traversal of the latest
corpus in order, collecting `(label, pct)` pairs. -/
def regression_summary (baseline latest : List ClassData) : Except Unit SummaryPair :=
  match latest with
  | [] => .ok ([], [])
  | c :: rest => do
    let p ← summary_class baseline c
    let q ← regression_summary baseline rest
    .ok (p.1 ++ q.1, p.2 ++ q.2)

/-- Method definition from `benchmark-groups.json` configuration. -/
structure MethodDef where
  name : String
  label : String
  codeSnippet : String
deriving DecidableEq

/-- Comparison-group configuration (id, metadata, baseline name, ordered
method definitions). -/
structure GroupConfig where
  id : String
  name : String
  description : String
  baseline : String
  methods : List MethodDef
deriving DecidableEq

/-- Parsed measurement row keyed by method name (`methods_data` values in
`convert_bdn_csv`, or the hardcoded `MEASUREMENTS` values in
`regenerate-data.py`). -/
structure RowData where
  mean_us : Option ℚ
  error_us : Option ℚ
  stddev_us : Option ℚ
  gbPerSec : Option ℚ
  allocated : ℤ
deriving DecidableEq

/-- Method record built by `convert_bdn_csv` (`generate-report.py` lines
249–262): measurement fields looked up by name with an all-absent default,
and `isBaseline` set iff the name equals the group's baseline name. -/
def convert_method (baseline_name : String) (methods_data : List (String × RowData))
    (md : MethodDef) : Method :=
  let data := (dictGet (·.1) methods_data md.name).map (·.2)
  { name := md.name, label := md.label, codeSnippet := md.codeSnippet,
    isBaseline := md.name = baseline_name,
    mean_us := data.bind (·.mean_us), error_us := data.bind (·.error_us),
    stddev_us := data.bind (·.stddev_us), gbPerSec := data.bind (·.gbPerSec),
    allocated := match data with | some d => d.allocated | none => 0 }

/-- Comparison group built by `convert_bdn_csv` (lines 246–269). -/
def convert_group (methods_data : List (String × RowData)) (gc : GroupConfig) : CompGroup :=
  { id := gc.id, name := gc.name, description := gc.description, baseline := gc.baseline,
    methods := gc.methods.map (convert_method gc.baseline methods_data) }

/-- Method record built by `regenerate-data.py` `main` (lines 70–83); the
construction is textually the same as in `convert_bdn_csv`. -/
def regen_method (baseline_name : String) (measurements : List (String × RowData))
    (md : MethodDef) : Method :=
  let data := (dictGet (·.1) measurements md.name).map (·.2)
  { name := md.name, label := md.label, codeSnippet := md.codeSnippet,
    isBaseline := md.name = baseline_name,
    mean_us := data.bind (·.mean_us), error_us := data.bind (·.error_us),
    stddev_us := data.bind (·.stddev_us), gbPerSec := data.bind (·.gbPerSec),
    allocated := match data with | some d => d.allocated | none => 0 }

/-- Comparison group built by `regenerate-data.py` `main` (lines 67–91). -/
def regen_group (measurements : List (String × RowData)) (gc : GroupConfig) : CompGroup :=
  { id := gc.id, name := gc.name, description := gc.description, baseline := gc.baseline,
    methods := gc.methods.map (regen_method gc.baseline measurements) }

/-- Fixture builder: a method with a name, label and optional mean; other
measurement fields absent, `isBaseline` false. -/
def mkMethod (n lbl : String) (v : Option ℚ) : Method :=
  { name := n, label := lbl, codeSnippet := "", isBaseline := false,
    mean_us := v, error_us := none, stddev_us := none, gbPerSec := none, allocated := 0 }

/-- Fixture builder: a comparison group with an id, baseline name and methods. -/
def mkGroup (i b : String) (ms : List Method) : CompGroup :=
  { id := i, name := "", description := "", baseline := b, methods := ms }

/-- Fixture builder: a benchmark class. -/
def mkClass (cn : String) (gs : List CompGroup) : ClassData :=
  { className := cn, comparisonGroups := gs }

/-- Fixture for temporal-threshold checks: all four baseline means are 100. -/
def c1BaseG : CompGroup :=
  mkGroup "g1" "A"
    [mkMethod "A" "AL" (some 100), mkMethod "M106" "M106L" (some 100),
     mkMethod "M94" "M94L" (some 100), mkMethod "M102" "M102L" (some 100)]

/-- Fixture: current means 100 (baseline method), 106, 94 and 102. -/
def c1LatG : CompGroup :=
  mkGroup "g1" "A"
    [mkMethod "A" "AL" (some 100), mkMethod "M106" "M106L" (some 106),
     mkMethod "M94" "M94L" (some 94), mkMethod "M102" "M102L" (some 102)]

/-- Fixture class wrapping `c1BaseG`. -/
def c1BaseC : ClassData := mkClass "cls" [c1BaseG]

/-- Fixture class wrapping `c1LatG`. -/
def c1LatC : ClassData := mkClass "cls" [c1LatG]

/-- Fixture: single method, baseline mean 100. -/
def c1ceBase : CompGroup := mkGroup "g1" "B" [mkMethod "M" "ML" (some 100)]

/-- Fixture: single method, current mean 102 (inside the claimed ±5 band). -/
def c1ceLat : CompGroup := mkGroup "g1" "B" [mkMethod "M" "ML" (some 102)]

/-- Fixture: single method whose baseline mean is exactly 0. -/
def c3BaseG : CompGroup := mkGroup "g" "X" [mkMethod "A" "AL" (some 0)]

/-- Fixture: the same method with current mean 5. -/
def c3LatG : CompGroup := mkGroup "g" "X" [mkMethod "A" "AL" (some 5)]

/-- Fixture class wrapping `c3BaseG`. -/
def c3BaseC : ClassData := mkClass "c" [c3BaseG]

/-- Fixture class wrapping `c3LatG`. -/
def c3LatC : ClassData := mkClass "c" [c3LatG]

/-- Fixture: current group with methods `A`, `B`. -/
def c6LatG : CompGroup :=
  mkGroup "g" "A" [mkMethod "A" "AL" (some 100), mkMethod "B" "BL" (some 110)]

/-- Fixture: historical baseline group with methods `A`, `B` and the
baseline-only method `C`. -/
def c6BaseG : CompGroup :=
  mkGroup "g" "A"
    [mkMethod "A" "AL" (some 100), mkMethod "B" "BL" (some 100), mkMethod "C" "CL" (some 120)]

/-- Fixture: snapshot corpus whose only method has a present mean of 0. -/
def c7ZeroC : ClassData := mkClass "c" [mkGroup "g" "B" [mkMethod "M" "ML" (some 0)]]

/-- Fixture: snapshot corpus with nonzero present means. -/
def c7NzC : ClassData :=
  mkClass "c" [mkGroup "g" "B" [mkMethod "M" "ML" (some 3), mkMethod "N" "NL" none]]


/-- Helper: `find?` over a list with pairwise-distinct keys returns the
element itself when searching for its own key. -/
theorem find?_key_self {α : Type} (key : α → String) :
    ∀ l : List α, (l.map key).Nodup → ∀ a ∈ l, l.find? (fun x => key x == key a) = some a := by
  intro l
  induction l with
  | nil => intro _ a ha; cases ha
  | cons b t ih =>
    intro hn a ha
    rw [List.map_cons, List.nodup_cons] at hn
    rcases List.mem_cons.mp ha with h | h
    · subst h
      exact List.find?_cons_of_pos _ (by simp)
    · have hne : (key b == key a) = false := by
        apply beq_eq_false_iff_ne.mpr
        intro he
        exact hn.1 (he ▸ List.mem_map.mpr ⟨a, h, rfl⟩)
      rw [List.find?_cons_of_neg _ (by simp [hne])]
      exact ih hn.2 a h

/-- Helper: a Python-dict lookup (`dictGet`, last binding wins) over a
key-distinct list finds the unique element carrying that key. -/
theorem dictGet_self {α : Type} (key : α → String) (l : List α)
    (hn : (l.map key).Nodup) {a : α} (ha : a ∈ l) : dictGet key l (key a) = some a := by
  unfold dictGet
  have hrev : (l.reverse.map key).Nodup := by
    rw [List.map_reverse]
    exact List.nodup_reverse.mpr hn
  exact find?_key_self key l.reverse hrev a (List.mem_reverse.mpr ha)

/-- Helper: `contains` is decidable membership. -/
theorem contains_mem_eq (l : List String) (x : String) : l.contains x = decide (x ∈ l) := by
  induction l with
  | nil => rfl
  | cons a t ih =>
    rw [List.contains_cons, ih]
    by_cases h : x = a
    · subst h; simp
    · simp [h]

/-- Helper: `contains` is invariant under reversal. -/
theorem contains_reverse (l : List String) (x : String) :
    l.reverse.contains x = l.contains x := by
  rw [contains_mem_eq, contains_mem_eq]
  simp [List.mem_reverse]

/-- Helper: the `seen`-set loop passes an unseen duplicate-free block through
unchanged, accumulating it into `seen`. -/
theorem dedupAux_append (l2 : List String) :
    ∀ (l seen : List String), l.Nodup → (∀ x ∈ l, seen.contains x = false) →
      dedupAux seen (l ++ l2) = l ++ dedupAux (l.reverse ++ seen) l2 := by
  intro l
  induction l with
  | nil => intro seen _ _; simp [dedupAux]
  | cons x t ih =>
    intro seen hnd hns
    obtain ⟨hx, hnd'⟩ := List.nodup_cons.mp hnd
    have hcx : seen.contains x = false := hns x (List.mem_cons_self x t)
    rw [List.cons_append]
    show dedupAux seen (x :: (t ++ l2)) = _
    rw [dedupAux, hcx]
    simp only [Bool.false_eq_true, if_false]
    have hns' : ∀ y ∈ t, (x :: seen).contains y = false := by
      intro y hy
      rw [List.contains_cons]
      have : (y == x) = false := beq_eq_false_iff_ne.mpr (fun he => hx (he ▸ hy))
      rw [this, hns y (List.mem_cons_of_mem x hy)]
      rfl
    rw [ih (x :: seen) hnd' hns']
    rw [List.cons_append, List.reverse_cons, List.append_assoc, List.singleton_append]

/-- Helper: on a duplicate-free list the `seen`-set loop is a filter against
the seen set. -/
theorem dedupAux_filter :
    ∀ (l seen : List String), l.Nodup → dedupAux seen l = l.filter (fun x => !(seen.contains x)) := by
  intro l
  induction l with
  | nil => intro seen _; rfl
  | cons x t ih =>
    intro seen hnd
    obtain ⟨hx, hnd'⟩ := List.nodup_cons.mp hnd
    rw [dedupAux, List.filter_cons]
    cases hc : seen.contains x with
    | true =>
      simp only [Bool.not_true, Bool.false_eq_true, if_false, if_true]
      exact ih seen hnd'
    | false =>
      simp only [Bool.not_false, Bool.false_eq_true, if_false, if_true]
      rw [ih (x :: seen) hnd']
      congr 1
      apply List.filter_congr
      intro y hy
      rw [List.contains_cons]
      have hb : (y == x) = false := beq_eq_false_iff_ne.mpr (fun he => hx (he ▸ hy))
      rw [hb, Bool.false_or]

/-- Helper: rounding to three decimals leaves an integer after scaling by
1000. -/
theorem round3_mul_den (q : ℚ) : (round3 q * 1000).den = 1 := by
  unfold round3
  rw [div_mul_cancel₀ _ (by norm_num : (1000 : ℚ) ≠ 0)]
  exact Rat.den_intCast _

/-- Helper: a successful character-list match exposes the head. -/
theorem startsWithL_cons (p : Char) (ps s : List Char)
    (h : startsWithL (p :: ps) s = true) : ∃ t, s = p :: t ∧ startsWithL ps t = true := by
  cases s with
  | nil => simp [startsWithL] at h
  | cons c cs =>
    rw [startsWithL, Bool.and_eq_true] at h
    obtain ⟨h1, h2⟩ := h
    have : p = c := of_decide_eq_true h1
    exact ⟨cs, by rw [this], h2⟩

/-- Helper: a string ending in `" ms"` is matched by the `" ms"` table entry,
never by `" us"`, `" ns"` or the shorter `" s"`. -/
theorem findSfx_ms (l : List Char) (h : endsWithL [' ', 'm', 's'] l = true) :
    findSfx l = some (l.take (l.length - 3), 1000) := by
  have h' := h
  unfold endsWithL at h'
  obtain ⟨t1, he1, h1⟩ := startsWithL_cons _ _ _ h'
  obtain ⟨t2, he2, h2⟩ := startsWithL_cons _ _ _ h1
  have hrev : l.reverse = 's' :: 'm' :: t2 := by rw [he1, he2]
  have e1 : (('u' : Char) = 'm') = False := eq_false (by decide)
  have e2 : (('n' : Char) = 'm') = False := eq_false (by decide)
  have hus : endsWithL [' ', 'u', 's'] l = false := by
    unfold endsWithL
    rw [show ([' ', 'u', 's'] : List Char).reverse = ['s', 'u', ' '] from rfl, hrev]
    simp [startsWithL, e1]
  have hns : endsWithL [' ', 'n', 's'] l = false := by
    unfold endsWithL
    rw [show ([' ', 'n', 's'] : List Char).reverse = ['s', 'n', ' '] from rfl, hrev]
    simp [startsWithL, e2]
  rw [findSfx]
  simp only [unitTable, findSfxIn]
  rw [hus, hns, h]
  simp

/-- C8: `parse_us` converts magnitude-plus-unit strings to microseconds with
thousands-separator commas stripped and the most specific suffix matched
first (a string ending `" ms"` is taken by the `" ms"` entry, never the
`" s"` one): the four specified examples hold and every non-absent result
is an exact multiple of one thousandth (three-decimal rounding). -/
theorem C8_parseTime_units :
    parse_us "150.0 ms" = .ok (some 150000)
    ∧ parse_us "1.29 us" = .ok (some (129 / 100))
    ∧ parse_us "NA" = .ok none
    ∧ parse_us "2,500 ns" = .ok (some (5 / 2))
    ∧ (∀ l : List Char, endsWithL [' ', 'm', 's'] l = true →
        findSfx l = some (l.take (l.length - 3), 1000))
    ∧ (∀ (s : String) (v : ℚ), parse_us s = .ok (some v) → (v * 1000).den = 1) := by
  refine ⟨by decide, by decide, by decide, by decide, findSfx_ms, ?_⟩
  intro s v h
  rw [parse_us] at h
  split at h
  · simp at h
  · rw [parseCoreUs] at h
    split at h
    · split at h
      · simp only [Except.ok.injEq, Option.some.injEq] at h
        exact h ▸ round3_mul_den _
      · simp at h
    · split at h
      · simp only [Except.ok.injEq, Option.some.injEq] at h
        exact h ▸ round3_mul_den _
      · simp at h

/-- Witness for C8 at concrete inputs: the `" ms"` suffix rule and the
three-decimal property instantiated. -/
theorem C8_parseTime_units_witness :
    findSfx "7 ms".data = some ("7 ms".data.take ("7 ms".data.length - 3), 1000)
    ∧ ((5 : ℚ) / 2 * 1000).den = 1 :=
  ⟨C8_parseTime_units.2.2.2.2.1 "7 ms".data (by decide),
   C8_parseTime_units.2.2.2.2.2 "2,500 ns" (5 / 2) (by decide)⟩

/-- C9 counterexample: `parse_bytes "abc B"` raises (models `ValueError`
from the unguarded `float` call in the `" B"` branch) instead of returning
0, refuting "any failure → 0" as stated. -/
theorem C9_counterexample : parse_bytes "abc B" = .error ()
    ∧ Except.error () ≠ (Except.ok (0 : ℤ)) := by
  exact ⟨by decide, by decide⟩

/-- C9 amended: `parse_bytes` maps empty, `"-"` and `"NA"` to 0, `" B"` to
the integer value, `" KB"` to value × 1024, unsuffixed numerics to their
value, and failures in the UNSUFFIXED branch to 0; a `B`/`KB`-suffixed
string with a malformed magnitude raises instead (see the
counterexample). -/
theorem C9_parseBytes_amended :
    parse_bytes "" = .ok 0 ∧ parse_bytes "-" = .ok 0 ∧ parse_bytes "NA" = .ok 0
    ∧ parse_bytes "1.5 KB" = .ok 1536 ∧ parse_bytes "200 B" = .ok 200
    ∧ parse_bytes "37" = .ok 37
    ∧ (∀ s : String, endsWithL [' ', 'B'] (trimWS s.data) = false →
        endsWithL [' ', 'K', 'B'] (trimWS s.data) = false →
        pyFloat (trimWS s.data) = none → parse_bytes s = .ok 0) := by
  refine ⟨by decide, by decide, by decide, by decide, by decide, by decide, ?_⟩
  intro s h1 h2 h3
  have h1' : endsWithL [' ', 'B'] (trimWS s.data) = false := h1
  have h2' : endsWithL [' ', 'K', 'B'] (trimWS s.data) = false := h2
  have h3' : pyFloat (trimWS s.data) = none := h3
  rw [parse_bytes]
  split
  · rfl
  · simp [h1', h2', h3']

/-- Witness for C9's quantified conjunct: an unsuffixed unparsable string
resolves to 0. -/
theorem C9_parseBytes_amended_witness : parse_bytes "zz" = .ok 0 :=
  C9_parseBytes_amended.2.2.2.2.2.2 "zz" (by decide) (by decide) (by decide)

/-- C2 counterexample: both parsers raise (model `.error ()`) on a string
that ends in a recognised unit suffix but whose magnitude part is not a
valid number, refuting "never raises to the caller". -/
theorem C2_counterexample : parse_us "x us" = .error () ∧ parse_bytes "x B" = .error () := by
  exact ⟨by decide, by decide⟩

/-- C2 amended: `parse_us` and `parse_bytes` raise if and only if the
normalised input ends in a recognised unit suffix whose magnitude part
`float` cannot parse; every other parse failure resolves to absent
(`parse_us`) or 0 (`parse_bytes`), and every success returns the parsed
value.  The ten conjuncts cover every branch of both functions: no-suffix
success and failure plus suffix success and raise for `parse_us`;
no-suffix success and failure, `" B"` success and raise, and `" KB"`
success and raise for `parse_bytes`. -/
theorem C2_amended_no_raise :
    (∀ (s : String) (v : ℚ), findSfx (normalize_us s) = none →
        pyFloat (normalize_us s) = some v → parse_us s = .ok (some (round3 v)))
    ∧ (∀ s : String, findSfx (normalize_us s) = none →
        pyFloat (normalize_us s) = none → parse_us s = .ok none)
    ∧ (∀ (s : String) (mag : List Char) (f v : ℚ),
        findSfx (normalize_us s) = some (mag, f) → pyFloat mag = some v →
        parse_us s = .ok (some (round3 (v * f))))
    ∧ (∀ (s : String) (mag : List Char) (f : ℚ),
        findSfx (normalize_us s) = some (mag, f) → pyFloat mag = none →
        parse_us s = .error ())
    ∧ (∀ (s : String) (v : ℚ), endsWithL [' ', 'B'] (trimWS s.data) = false →
        endsWithL [' ', 'K', 'B'] (trimWS s.data) = false →
        pyFloat (trimWS s.data) = some v → parse_bytes s = .ok (pyTrunc v))
    ∧ (∀ s : String, endsWithL [' ', 'B'] (trimWS s.data) = false →
        endsWithL [' ', 'K', 'B'] (trimWS s.data) = false →
        pyFloat (trimWS s.data) = none → parse_bytes s = .ok 0)
    ∧ (∀ (s : String) (v : ℚ), endsWithL [' ', 'B'] (trimWS s.data) = true →
        pyFloat ((trimWS s.data).take ((trimWS s.data).length - 2)) = some v →
        parse_bytes s = .ok (pyTrunc v))
    ∧ (∀ s : String, endsWithL [' ', 'B'] (trimWS s.data) = true →
        pyFloat ((trimWS s.data).take ((trimWS s.data).length - 2)) = none →
        parse_bytes s = .error ())
    ∧ (∀ (s : String) (v : ℚ), endsWithL [' ', 'B'] (trimWS s.data) = false →
        endsWithL [' ', 'K', 'B'] (trimWS s.data) = true →
        pyFloat ((trimWS s.data).take ((trimWS s.data).length - 3)) = some v →
        parse_bytes s = .ok (pyTrunc (v * 1024)))
    ∧ (∀ s : String, endsWithL [' ', 'B'] (trimWS s.data) = false →
        endsWithL [' ', 'K', 'B'] (trimWS s.data) = true →
        pyFloat ((trimWS s.data).take ((trimWS s.data).length - 3)) = none →
        parse_bytes s = .error ()) := by
  refine ⟨?_, ?_, ?_, ?_, ?_, ?_, ?_, ?_, ?_, ?_⟩
  · intro s v hf hp
    rw [parse_us]
    split
    · rename_i hx
      exfalso
      rcases hx with h | h | h <;> subst h
      · rw [show pyFloat (normalize_us "") = none from by decide] at hp; simp at hp
      · rw [show pyFloat (normalize_us "NA") = none from by decide] at hp; simp at hp
      · rw [show pyFloat (normalize_us "N/A") = none from by decide] at hp; simp at hp
    · rw [parseCoreUs, hf]
      simp [hp]
  · intro s hf hp
    rw [parse_us]
    split
    · rfl
    · rw [parseCoreUs, hf]
      simp [hp]
  · intro s mag f v hf hp
    rw [parse_us]
    split
    · rename_i hx
      exfalso
      rcases hx with h | h | h <;> subst h
      · rw [show findSfx (normalize_us "") = none from by decide] at hf; simp at hf
      · rw [show findSfx (normalize_us "NA") = none from by decide] at hf; simp at hf
      · rw [show findSfx (normalize_us "N/A") = none from by decide] at hf; simp at hf
    · rw [parseCoreUs, hf]
      simp [hp]
  · intro s mag f hf hp
    rw [parse_us]
    split
    · rename_i hx
      exfalso
      rcases hx with h | h | h <;> subst h
      · rw [show findSfx (normalize_us "") = none from by decide] at hf; simp at hf
      · rw [show findSfx (normalize_us "NA") = none from by decide] at hf; simp at hf
      · rw [show findSfx (normalize_us "N/A") = none from by decide] at hf; simp at hf
    · rw [parseCoreUs, hf]
      simp [hp]
  · intro s v h1 h2 hp
    rw [parse_bytes]
    split
    · rename_i hx
      exfalso
      rcases hx with h | h | h <;> subst h
      · rw [show pyFloat (trimWS ("" : String).data) = none from by decide] at hp; simp at hp
      · rw [show pyFloat (trimWS ("-" : String).data) = none from by decide] at hp; simp at hp
      · rw [show pyFloat (trimWS ("NA" : String).data) = none from by decide] at hp; simp at hp
    · simp only [h1, h2, Bool.false_eq_true, if_false]
      simp [hp]
  · intro s h1 h2 hp
    rw [parse_bytes]
    split
    · rfl
    · simp only [h1, h2, Bool.false_eq_true, if_false]
      simp [hp]
  · intro s v h1 hp
    rw [parse_bytes]
    split
    · rename_i hx
      exfalso
      rcases hx with h | h | h <;> subst h
      · exact absurd h1 (by decide)
      · exact absurd h1 (by decide)
      · exact absurd h1 (by decide)
    · simp [h1, hp]
  · intro s h1 hp
    rw [parse_bytes]
    split
    · rename_i hx
      exfalso
      rcases hx with h | h | h <;> subst h
      · exact absurd h1 (by decide)
      · exact absurd h1 (by decide)
      · exact absurd h1 (by decide)
    · simp [h1, hp]
  · intro s v h1 h2 hp
    rw [parse_bytes]
    split
    · rename_i hx
      exfalso
      rcases hx with h | h | h <;> subst h
      · exact absurd h2 (by decide)
      · exact absurd h2 (by decide)
      · exact absurd h2 (by decide)
    · simp only [h1, Bool.false_eq_true, if_false]
      simp [h2, hp]
  · intro s h1 h2 hp
    rw [parse_bytes]
    split
    · rename_i hx
      exfalso
      rcases hx with h | h | h <;> subst h
      · exact absurd h2 (by decide)
      · exact absurd h2 (by decide)
      · exact absurd h2 (by decide)
    · simp only [h1, Bool.false_eq_true, if_false]
      simp [h2, hp]

/-- Witness for C2's amended conjuncts: an unsuffixed failure resolves to
absent, a well-formed `" ms"` value parses, an unsuffixed bytes failure
resolves to 0, a `" KB"` value scales by 1024, and a malformed `" KB"`
magnitude raises. -/
theorem C2_amended_no_raise_witness :
    parse_us "abc" = .ok none
    ∧ parse_us "5 ms" = .ok (some (round3 (5 * 1000)))
    ∧ parse_bytes "zz9" = .ok 0
    ∧ parse_bytes "2 KB" = .ok (pyTrunc (2 * 1024))
    ∧ parse_bytes "qq KB" = .error () :=
  ⟨C2_amended_no_raise.2.1 "abc" (by decide) (by decide),
   C2_amended_no_raise.2.2.1 "5 ms" ['5'] 1000 5 (by decide) (by decide),
   C2_amended_no_raise.2.2.2.2.2.1 "zz9" (by decide) (by decide) (by decide),
   C2_amended_no_raise.2.2.2.2.2.2.2.2.1 "2 KB" 2 (by decide) (by decide) (by decide),
   C2_amended_no_raise.2.2.2.2.2.2.2.2.2 "qq KB" (by decide) (by decide) (by decide)⟩

/-- C4: the within-group ratio is current mean over the CURRENT snapshot's
group-baseline mean (the historical group plays no part); absent operands
or a zero baseline give the unknown display `("—", "neutral")`; a deviation
under 1.5% is neutral, a ratio below 1 displays the inverse as `faster`, a
ratio above 1 displays directly as `slower`; baseline 100 with candidate
100.5 is neutral and candidate 103 is `1.03x slower`. -/
theorem C4_within_group_ratio :
    (∀ (gb gb' gl : CompGroup) (n : String), n ≠ gl.baseline →
        (regression_row gb gl n).ratio_str =
          (compute_ratio ((dictGet (fun m => m.name) gl.methods n).bind (fun m => m.mean_us))
            (groupBaselineMean gl)).1
        ∧ (regression_row gb gl n).ratio_class =
          (compute_ratio ((dictGet (fun m => m.name) gl.methods n).bind (fun m => m.mean_us))
            (groupBaselineMean gl)).2
        ∧ (regression_row gb gl n).ratio_str = (regression_row gb' gl n).ratio_str)
    ∧ (∀ mm bm : Option ℚ, mm = none ∨ bm = none ∨ bm = some 0 →
        compute_ratio mm bm = ("—", "neutral"))
    ∧ (∀ m b : ℚ, b ≠ 0 → |m / b - 1| < 15 / 1000 →
        compute_ratio (some m) (some b) = ("1.00x", "neutral"))
    ∧ (∀ m b : ℚ, b ≠ 0 → ¬ |m / b - 1| < 15 / 1000 → m / b < 1 →
        compute_ratio (some m) (some b) = (fmtF2 (1 / (m / b)) ++ "x faster", "faster"))
    ∧ (∀ m b : ℚ, b ≠ 0 → ¬ |m / b - 1| < 15 / 1000 → 1 < m / b →
        compute_ratio (some m) (some b) = (fmtF2 (m / b) ++ "x slower", "slower"))
    ∧ compute_ratio (some (201 / 2)) (some 100) = ("1.00x", "neutral")
    ∧ compute_ratio (some 103) (some 100) = ("1.03x slower", "slower") := by
  refine ⟨?_, ?_, ?_, ?_, ?_, by decide, by decide⟩
  · intro gb gb' gl n hn
    refine ⟨?_, ?_, ?_⟩ <;> simp [regression_row, hn]
  · rintro mm bm (rfl | rfl | rfl)
    · rfl
    · cases mm <;> rfl
    · cases mm with
      | none => rfl
      | some m => simp [compute_ratio]
  · intro m b hb h
    simp only [compute_ratio]
    rw [if_neg hb, if_pos h]
  · intro m b hb h2 h3
    simp only [compute_ratio]
    rw [if_neg hb, if_neg h2, if_pos h3]
  · intro m b hb h2 h3
    simp only [compute_ratio]
    rw [if_neg hb, if_neg h2, if_neg (not_lt.mpr (le_of_lt h3))]

/-- Witness for C4: the slower branch applied at 103 vs 100. -/
theorem C4_within_group_ratio_witness :
    compute_ratio (some 103) (some 100) = (fmtF2 ((103 : ℚ) / 100) ++ "x slower", "slower") :=
  C4_within_group_ratio.2.2.2.2.1 103 100 (by decide) (by decide) (by decide)

/-- C5: a method that is the in-group baseline reports the literal
within-group tag `baseline` — not the neutral tag `1.00x` — in the public
table (keyed on its `isBaseline` flag) and in the regression table (keyed
on the group's baseline name), regardless of its means. -/
theorem C5_baseline_tag :
    (∀ g : CompGroup, ∀ m ∈ g.methods, m.isBaseline = true →
        (public_row g m).ratio_str = "baseline" ∧ (public_row g m).ratio_str ≠ "1.00x")
    ∧ (∀ gb gl : CompGroup, ∀ n : String, n = gl.baseline →
        (regression_row gb gl n).ratio_str = "baseline"
        ∧ (regression_row gb gl n).ratio_str ≠ "1.00x") := by
  constructor
  · intro g m _ hb
    have h1 : (public_row g m).ratio_str = "baseline" := by simp [public_row, hb]
    exact ⟨h1, by rw [h1]; decide⟩
  · intro gb gl n hn
    have h1 : (regression_row gb gl n).ratio_str = "baseline" := by simp [regression_row, hn]
    exact ⟨h1, by rw [h1]; decide⟩

/-- Witness for C5: the baseline-named row of the threshold fixture and a
flagged public row both show the `baseline` tag. -/
theorem C5_baseline_tag_witness :
    (regression_row c1BaseG c1LatG "A").ratio_str = "baseline"
    ∧ (public_row (mkGroup "g" "A" [⟨"A", "AL", "", true, some 100, none, none, none, 0⟩])
        ⟨"A", "AL", "", true, some 100, none, none, none, 0⟩).ratio_str = "baseline" :=
  ⟨(C5_baseline_tag.2 c1BaseG c1LatG "A" (by decide)).1,
   (C5_baseline_tag.1 (mkGroup "g" "A" [⟨"A", "AL", "", true, some 100, none, none, none, 0⟩])
      ⟨"A", "AL", "", true, some 100, none, none, none, 0⟩ (by decide) (by decide)).1⟩

/-- C10: in every snapshot document produced by `convert_bdn_csv` or by
`regenerate-data.py`, a method's `isBaseline` flag is true exactly when its
name equals the group's stored `baseline` field; a group whose baseline
name matches none of its configured methods has zero flagged baselines. -/
theorem C10_isBaseline_flag :
    (∀ (md : List (String × RowData)) (gc : GroupConfig),
        ∀ m ∈ (convert_group md gc).methods,
          (m.isBaseline = true ↔ m.name = (convert_group md gc).baseline))
    ∧ (∀ (meas : List (String × RowData)) (gc : GroupConfig),
        ∀ m ∈ (regen_group meas gc).methods,
          (m.isBaseline = true ↔ m.name = (regen_group meas gc).baseline))
    ∧ (∀ (md : List (String × RowData)) (gc : GroupConfig),
        (∀ d ∈ gc.methods, d.name ≠ gc.baseline) →
        ∀ m ∈ (convert_group md gc).methods, m.isBaseline = false)
    ∧ (∀ (meas : List (String × RowData)) (gc : GroupConfig),
        (∀ d ∈ gc.methods, d.name ≠ gc.baseline) →
        ∀ m ∈ (regen_group meas gc).methods, m.isBaseline = false) := by
  refine ⟨?_, ?_, ?_, ?_⟩
  · intro md gc m hm
    simp only [convert_group] at hm
    obtain ⟨d, hd, rfl⟩ := List.mem_map.mp hm
    simp [convert_method, convert_group]
  · intro meas gc m hm
    simp only [regen_group] at hm
    obtain ⟨d, hd, rfl⟩ := List.mem_map.mp hm
    simp [regen_method, regen_group]
  · intro md gc h m hm
    simp only [convert_group] at hm
    obtain ⟨d, hd, rfl⟩ := List.mem_map.mp hm
    simp only [convert_method]
    exact decide_eq_false (h d hd)
  · intro meas gc h m hm
    simp only [regen_group] at hm
    obtain ⟨d, hd, rfl⟩ := List.mem_map.mp hm
    simp only [regen_method]
    exact decide_eq_false (h d hd)

/-- Witness for C10: flag equivalence and the zero-flag corollary at
concrete group configurations. -/
theorem C10_isBaseline_flag_witness :
    ((convert_method "A" [] ⟨"A", "l", ""⟩).isBaseline = true ↔
      (convert_method "A" [] ⟨"A", "l", ""⟩).name =
        (convert_group [] ⟨"g", "", "", "A", [⟨"A", "l", ""⟩]⟩).baseline)
    ∧ (regen_method "Z" [] ⟨"B", "l", ""⟩).isBaseline = false :=
  ⟨C10_isBaseline_flag.1 [] ⟨"g", "", "", "A", [⟨"A", "l", ""⟩]⟩
      (convert_method "A" [] ⟨"A", "l", ""⟩) (by decide),
   C10_isBaseline_flag.2.2.2 [] ⟨"g", "", "", "Z", [⟨"B", "l", ""⟩]⟩
      (by intro d hd; fin_cases hd; decide)
      (regen_method "Z" [] ⟨"B", "l", ""⟩) (by decide)⟩

/-- Helper: the row's temporal columns are `temporal_fields` of its two
mean fields (definitional unfolding of `regression_row`). -/
theorem regRow_tri (gb gl : CompGroup) (n : String) :
    (regression_row gb gl n).delta_class =
      (temporal_fields (regression_row gb gl n).bl_mean (regression_row gb gl n).lt_mean).1
    ∧ (regression_row gb gl n).delta_str =
      (temporal_fields (regression_row gb gl n).bl_mean (regression_row gb gl n).lt_mean).2.1
    ∧ (regression_row gb gl n).pct_str =
      (temporal_fields (regression_row gb gl n).bl_mean (regression_row gb gl n).lt_mean).2.2 :=
  ⟨rfl, rfl, rfl⟩

/-- Helper: `temporal_fields` on two present means, written out. -/
theorem temporal_fields_eq (b c : ℚ) :
    temporal_fields (some b) (some c) =
      ((if (if b ≠ 0 then (c - b) / b * 100 else 0) < -(3 / 2) then "delta-positive"
        else if (if b ≠ 0 then (c - b) / b * 100 else 0) > 3 / 2 then "delta-negative"
        else "neutral"),
       fmtPlus1 (c - b),
       fmtPlus1 (if b ≠ 0 then (c - b) / b * 100 else 0) ++ "%") := by
  simp only [temporal_fields]
  split <;> split
  · rfl
  · split <;> rfl
  · rfl
  · split <;> rfl

/-- Helper: the colour class of `temporal_fields` on present means. -/
theorem temporal_fields_class (b c : ℚ) :
    (temporal_fields (some b) (some c)).1 =
      (if (if b ≠ 0 then (c - b) / b * 100 else 0) < -(3 / 2) then "delta-positive"
       else if (if b ≠ 0 then (c - b) / b * 100 else 0) > 3 / 2 then "delta-negative"
       else "neutral") := by
  rw [temporal_fields_eq]

/-- Helper: the delta string of `temporal_fields` on present means. -/
theorem temporal_fields_delta (b c : ℚ) :
    (temporal_fields (some b) (some c)).2.1 = fmtPlus1 (c - b) := by
  rw [temporal_fields_eq]

/-- Helper: the percent string of `temporal_fields` on present means. -/
theorem temporal_fields_pct (b c : ℚ) :
    (temporal_fields (some b) (some c)).2.2 =
      fmtPlus1 (if b ≠ 0 then (c - b) / b * 100 else 0) ++ "%" := by
  rw [temporal_fields_eq]

/-- Helper: `temporal_fields` with an absent mean is the neutral em-dash
triple. -/
theorem temporal_fields_absent (o1 o2 : Option ℚ) (h : o1 = none ∨ o2 = none) :
    temporal_fields o1 o2 = ("neutral", "—", "—") := by
  rcases h with rfl | rfl
  · cases o2 <;> rfl
  · cases o1 <;> rfl

/-- C1 counterexample: baseline mean 100 with current mean 102 (inside the
claimed ±5 neutral band) is coloured `delta-negative`, not `neutral`, in
the per-row regression table — the table uses ±1.5 thresholds. -/
theorem C1_counterexample :
    (html_data_table_regression c1ceBase c1ceLat).map (fun r => r.delta_class)
      = ["delta-negative"]
    ∧ "delta-negative" ≠ "neutral" := by
  exact ⟨by decide, by decide⟩

/-- C1 amended: the ±5 thresholds govern only the cross-class summary
(regressed iff pct > 5, improved iff pct < −5); the per-row table colours
the temporal delta with ±1.5 thresholds (`delta-positive` iff pct < −1.5,
`delta-negative` iff pct > 1.5, else `neutral`).  Baseline 100: current
106 is a summary regression and table `delta-negative`; 94 a summary
improvement and table `delta-positive`; 102 is absent from the summary but
table `delta-negative`. -/
theorem C1_amended_thresholds :
    (∀ (bl_methods : List Method) (m blm : Method) (b c : ℚ),
        dictGet (fun x => x.name) bl_methods m.name = some blm →
        blm.mean_us = some b → m.mean_us = some c → b ≠ 0 →
        ∃ p : SummaryPair, summary_method bl_methods m = .ok p
          ∧ (p.1 ≠ [] ↔ (c - b) / b * 100 > 5)
          ∧ (p.2 ≠ [] ↔ (c - b) / b * 100 < -5))
    ∧ (∀ (gb gl : CompGroup) (n : String) (b c : ℚ),
        (regression_row gb gl n).bl_mean = some b →
        (regression_row gb gl n).lt_mean = some c → b ≠ 0 →
        (((regression_row gb gl n).delta_class = "delta-positive" ↔ (c - b) / b * 100 < -(3 / 2))
        ∧ ((regression_row gb gl n).delta_class = "delta-negative" ↔ (c - b) / b * 100 > 3 / 2)
        ∧ ((regression_row gb gl n).delta_class = "neutral" ↔
            (-(3 / 2) ≤ (c - b) / b * 100 ∧ (c - b) / b * 100 ≤ 3 / 2))))
    ∧ regression_summary [c1BaseC] [c1LatC] = .ok ([("M106L", 6)], [("M94L", -6)])
    ∧ (html_data_table_regression c1BaseG c1LatG).map (fun r => r.delta_class)
        = ["neutral", "delta-negative", "delta-positive", "delta-negative"] := by
  refine ⟨?_, ?_, by decide, by decide⟩
  · intro bl_methods m blm b c hd hb hc hbz
    rw [summary_method, hd]
    simp only [hb, hc]
    rw [if_neg hbz]
    by_cases h5 : (c - b) / b * 100 > 5
    · rw [if_pos h5]
      refine ⟨_, rfl, by simpa using h5, ?_⟩
      simp only [ne_eq, not_true_eq_false, false_iff, not_lt]
      linarith
    · rw [if_neg h5]
      by_cases h5' : (c - b) / b * 100 < -5
      · rw [if_pos h5']
        refine ⟨_, rfl, by simpa using h5, by simpa using h5'⟩
      · rw [if_neg h5']
        refine ⟨_, rfl, by simpa using h5, by simpa using h5'⟩
  · intro gb gl n b c h1 h2 hbz
    rw [(regRow_tri gb gl n).1, h1, h2, temporal_fields_class, if_pos hbz]
    by_cases hA : (c - b) / b * 100 < -(3 / 2)
    · rw [if_pos hA]
      refine ⟨by simpa using hA, ?_, ?_⟩
      · constructor
        · intro h; exact absurd h (by decide)
        · intro h; exfalso; linarith
      · constructor
        · intro h; exact absurd h (by decide)
        · intro h; exfalso; linarith [h.1]
    · rw [if_neg hA]
      by_cases hB : (c - b) / b * 100 > 3 / 2
      · rw [if_pos hB]
        refine ⟨?_, by simpa using hB, ?_⟩
        · constructor
          · intro h; exact absurd h (by decide)
          · intro h; exact absurd h hA
        · constructor
          · intro h; exact absurd h (by decide)
          · intro h; exfalso; linarith [h.2]
      · rw [if_neg hB]
        refine ⟨?_, ?_, ?_⟩
        · constructor
          · intro h; exact absurd h (by decide)
          · intro h; exact absurd h hA
        · constructor
          · intro h; exact absurd h (by decide)
          · intro h; exact absurd h hB
        · constructor
          · intro _; exact ⟨le_of_not_lt hA, le_of_not_lt hB⟩
          · intro _; rfl

/-- Witness for C1's quantified conjuncts at the 102-vs-100 row. -/
theorem C1_amended_thresholds_witness :
    ((regression_row c1BaseG c1LatG "M102").delta_class = "delta-negative"
      ↔ ((102 : ℚ) - 100) / 100 * 100 > 3 / 2) :=
  (C1_amended_thresholds.2.1 c1BaseG c1LatG "M102" 100 102 (by decide) (by decide)
    (by decide)).2.1

/-- C3 counterexample: with a present baseline mean of exactly 0 and a
present current mean, the per-row `Δ (%)` cell shows `+0.0%` (the code's
`pct = 0` fallback), not the absent dash, and the cross-class summary
raises `ZeroDivisionError` instead of treating the percent as absent. -/
theorem C3_counterexample :
    (html_data_table_regression c3BaseG c3LatG).map (fun r => r.pct_str) = ["+0.0%"]
    ∧ "+0.0%" ≠ "—"
    ∧ regression_summary [c3BaseC] [c3LatC] = .error () := by
  exact ⟨by decide, by decide, by decide⟩

/-- C3 amended: temporal delta is current − baseline when both present,
absent otherwise; the delta percent is `100 * delta / baseline` when the
baseline mean is present and non-zero, and absent when either mean is
absent — but a present baseline mean of exactly 0 yields a displayed 0 in
the per-row table and an error in the summary, not an absent value. -/
theorem C3_amended_delta_pct :
    (∀ (gb gl : CompGroup) (n : String) (b c : ℚ),
        (regression_row gb gl n).bl_mean = some b →
        (regression_row gb gl n).lt_mean = some c →
        (regression_row gb gl n).delta_str = fmtPlus1 (c - b)
        ∧ (b ≠ 0 → (regression_row gb gl n).pct_str = fmtPlus1 ((c - b) / b * 100) ++ "%")
        ∧ (b = 0 → (regression_row gb gl n).pct_str = "+0.0%"))
    ∧ (∀ (gb gl : CompGroup) (n : String),
        (regression_row gb gl n).bl_mean = none ∨ (regression_row gb gl n).lt_mean = none →
        (regression_row gb gl n).delta_str = "—" ∧ (regression_row gb gl n).pct_str = "—")
    ∧ (∀ (bl_methods : List Method) (m blm : Method) (c : ℚ),
        dictGet (fun x => x.name) bl_methods m.name = some blm →
        blm.mean_us = some 0 → m.mean_us = some c →
        summary_method bl_methods m = .error ()) := by
  refine ⟨?_, ?_, ?_⟩
  · intro gb gl n b c h1 h2
    refine ⟨?_, ?_, ?_⟩
    · rw [(regRow_tri gb gl n).2.1, h1, h2, temporal_fields_delta]
    · intro hbz
      rw [(regRow_tri gb gl n).2.2, h1, h2, temporal_fields_pct, if_pos hbz]
    · intro hbz
      subst hbz
      rw [(regRow_tri gb gl n).2.2, h1, h2, temporal_fields_pct,
        if_neg (by simp : ¬ (0 : ℚ) ≠ 0)]
      decide
  · intro gb gl n h
    constructor
    · rw [(regRow_tri gb gl n).2.1, temporal_fields_absent _ _ h]
    · rw [(regRow_tri gb gl n).2.2, temporal_fields_absent _ _ h]
  · intro bl_methods m blm c hd hb hc
    rw [summary_method, hd]
    simp only [hb, hc]
    simp

/-- Witness for C3's quantified conjuncts at the zero-baseline fixture. -/
theorem C3_amended_delta_pct_witness :
    (regression_row c3BaseG c3LatG "A").delta_str = fmtPlus1 ((5 : ℚ) - 0)
    ∧ (regression_row c3BaseG c3LatG "A").pct_str = "+0.0%" :=
  ⟨(C3_amended_delta_pct.1 c3BaseG c3LatG "A" 0 5 (by decide) (by decide)).1,
   (C3_amended_delta_pct.1 c3BaseG c3LatG "A" 0 5 (by decide) (by decide)).2.2 rfl⟩

/-- C6: the merged method-name list is all current-group names in order
followed by the baseline-only names in baseline order, without duplicates;
a merged method with no current row reports absent temporal columns and
the unknown within-group display.  Concretely, current `[A, B]` with
baseline `[A, B, C]` merges to `[A, B, C]` and `C`'s row is
absent/unknown. -/
theorem C6_merge_order :
    (∀ lt bl : List Method,
        (lt.map (fun m => m.name)).Nodup → (bl.map (fun m => m.name)).Nodup →
        mergedNames lt bl = lt.map (fun m => m.name)
          ++ (bl.map (fun m => m.name)).filter
              (fun x => !((lt.map (fun m => m.name)).contains x)))
    ∧ (∀ (gb gl : CompGroup) (n : String),
        dictGet (fun m => m.name) gl.methods n = none → n ≠ gl.baseline →
        (regression_row gb gl n).delta_str = "—" ∧ (regression_row gb gl n).pct_str = "—"
        ∧ (regression_row gb gl n).ratio_str = "—"
        ∧ (regression_row gb gl n).ratio_class = "neutral")
    ∧ (html_data_table_regression c6BaseG c6LatG).map (fun r => r.rname) = ["A", "B", "C"]
    ∧ (regression_row c6BaseG c6LatG "C").delta_str = "—"
    ∧ (regression_row c6BaseG c6LatG "C").pct_str = "—"
    ∧ (regression_row c6BaseG c6LatG "C").ratio_str = "—"
    ∧ (regression_row c6BaseG c6LatG "C").ratio_class = "neutral" := by
  refine ⟨?_, ?_, by decide, by decide, by decide, by decide, by decide⟩
  · intro lt bl h1 h2
    rw [mergedNames, List.map_append]
    rw [dedupAux_append (bl.map (fun m => m.name)) (lt.map (fun m => m.name)) []
        h1 (by intro x _; rfl)]
    rw [List.append_nil]
    rw [dedupAux_filter (bl.map (fun m => m.name)) (lt.map (fun m => m.name)).reverse h2]
    congr 1
    apply List.filter_congr
    intro y _
    rw [contains_reverse]
  · intro gb gl n hlt hn
    have h2 : (regression_row gb gl n).lt_mean = none := by
      show (dictGet (fun m => m.name) gl.methods n).bind (fun m => m.mean_us) = none
      rw [hlt]
      rfl
    refine ⟨?_, ?_, ?_, ?_⟩
    · rw [(regRow_tri gb gl n).2.1, temporal_fields_absent _ _ (Or.inr h2)]
    · rw [(regRow_tri gb gl n).2.2, temporal_fields_absent _ _ (Or.inr h2)]
    · have hr : (regression_row gb gl n).ratio_str =
          (compute_ratio ((dictGet (fun m => m.name) gl.methods n).bind (fun m => m.mean_us))
            (groupBaselineMean gl)).1 := by
        simp [regression_row, hn]
      rw [hr, hlt]
      cases groupBaselineMean gl <;> rfl
    · have hr : (regression_row gb gl n).ratio_class =
          (compute_ratio ((dictGet (fun m => m.name) gl.methods n).bind (fun m => m.mean_us))
            (groupBaselineMean gl)).2 := by
        simp [regression_row, hn]
      rw [hr, hlt]
      cases groupBaselineMean gl <;> rfl

/-- Witness for C6's quantified conjuncts at the `[A, B]` / `[A, B, C]`
fixture. -/
theorem C6_merge_order_witness :
    mergedNames c6LatG.methods c6BaseG.methods =
      c6LatG.methods.map (fun m => m.name)
      ++ (c6BaseG.methods.map (fun m => m.name)).filter
          (fun x => !((c6LatG.methods.map (fun m => m.name)).contains x))
    ∧ (regression_row c6BaseG c6LatG "C").ratio_str = "—" :=
  ⟨C6_merge_order.1 c6LatG.methods c6BaseG.methods (by decide) (by decide),
   (C6_merge_order.2.1 c6BaseG c6LatG "C" (by decide) (by decide)).2.2.1⟩

/-- Helper: over a self-compared method list with distinct names and no
present zero mean, every method contributes nothing to the summary. -/
theorem summary_methods_self (ms : List Method)
    (hn : (ms.map (fun m => m.name)).Nodup)
    (hz : ∀ m ∈ ms, m.mean_us ≠ some 0) :
    ∀ l : List Method, (∀ m ∈ l, m ∈ ms) → summary_methods ms l = .ok ([], []) := by
  intro l
  induction l with
  | nil => intro _; rfl
  | cons m rest ih =>
    intro hl
    have hm : m ∈ ms := hl m (List.mem_cons_self m rest)
    have hone : summary_method ms m = .ok ([], []) := by
      rw [summary_method, dictGet_self (fun x => x.name) ms hn hm]
      cases hmu : m.mean_us with
      | none => simp only [hmu]
      | some b =>
        have hb : ¬ b = 0 := fun h => hz m hm (by rw [hmu, h])
        simp only [hmu]
        rw [if_neg hb]
        have h0 : (b - b) / b * 100 = 0 := by rw [sub_self, zero_div, zero_mul]
        rw [h0]
        norm_num
    simp only [summary_methods]
    rw [hone, ih (fun x hx => hl x (List.mem_cons_of_mem m hx))]
    rfl

/-- Helper: over a self-compared group list with distinct ids, the summary
collects nothing. -/
theorem summary_groups_self (gs : List CompGroup)
    (hid : (gs.map (fun g => g.id)).Nodup)
    (hm : ∀ g ∈ gs, ((g.methods).map (fun m => m.name)).Nodup)
    (hz : ∀ g ∈ gs, ∀ m ∈ g.methods, m.mean_us ≠ some 0) :
    ∀ l : List CompGroup, (∀ g ∈ l, g ∈ gs) → summary_groups gs l = .ok ([], []) := by
  intro l
  induction l with
  | nil => intro _; rfl
  | cons g rest ih =>
    intro hl
    have hg : g ∈ gs := hl g (List.mem_cons_self g rest)
    have hone : summary_group gs g = .ok ([], []) := by
      rw [summary_group, dictGet_self (fun x => x.id) gs hid hg]
      show summary_methods g.methods g.methods = .ok ([], [])
      exact summary_methods_self g.methods (hm g hg) (hz g hg) g.methods (fun x hx => hx)
    simp only [summary_groups]
    rw [hone, ih (fun x hx => hl x (List.mem_cons_of_mem g hx))]
    rfl

/-- Helper: a whole snapshot corpus compared against itself produces an
empty summary, provided keys are distinct and no present mean is zero. -/
theorem regression_summary_self_aux (S : List ClassData)
    (hcn : (S.map (fun c => c.className)).Nodup)
    (hgid : ∀ c ∈ S, ((c.comparisonGroups).map (fun g => g.id)).Nodup)
    (hmn : ∀ c ∈ S, ∀ g ∈ c.comparisonGroups, ((g.methods).map (fun m => m.name)).Nodup)
    (hz : ∀ c ∈ S, ∀ g ∈ c.comparisonGroups, ∀ m ∈ g.methods, m.mean_us ≠ some 0) :
    ∀ l : List ClassData, (∀ c ∈ l, c ∈ S) → regression_summary S l = .ok ([], []) := by
  intro l
  induction l with
  | nil => intro _; rfl
  | cons c rest ih =>
    intro hl
    have hc : c ∈ S := hl c (List.mem_cons_self c rest)
    have hone : summary_class S c = .ok ([], []) := by
      rw [summary_class, dictGet_self (fun x => x.className) S hcn hc]
      show summary_groups c.comparisonGroups c.comparisonGroups = .ok ([], [])
      exact summary_groups_self c.comparisonGroups (hgid c hc) (hmn c hc) (hz c hc)
        c.comparisonGroups (fun x hx => hx)
    simp only [regression_summary]
    rw [hone, ih (fun x hx => hl x (List.mem_cons_of_mem c hx))]
    rfl

/-- C7 counterexample: a snapshot containing a present mean of exactly 0,
compared against itself, makes the summary computation raise
(`ZeroDivisionError`), so the run does not report "no regressions or
improvements". -/
theorem C7_counterexample :
    regression_summary [c7ZeroC] [c7ZeroC] = .error ()
    ∧ regression_summary [c7ZeroC] [c7ZeroC] ≠ .ok ([], []) := by
  exact ⟨by decide, by decide⟩

/-- C7 amended: comparing a snapshot against itself yields, for every
method whose mean is present, temporal delta `+0.0`, percent `+0.0%` and
the neutral colour in every regression-table row; and the summary reports
no regressions or improvements PROVIDED no present mean is exactly zero
(a present zero mean aborts the summary with a division error — see the
counterexample). -/
theorem C7_self_comparison_amended :
    (∀ g : CompGroup, ∀ row ∈ html_data_table_regression g g, ∀ v : ℚ,
        row.lt_mean = some v →
        row.delta_str = "+0.0" ∧ row.pct_str = "+0.0%" ∧ row.delta_class = "neutral")
    ∧ (∀ S : List ClassData,
        (S.map (fun c => c.className)).Nodup →
        (∀ c ∈ S, ((c.comparisonGroups).map (fun g => g.id)).Nodup) →
        (∀ c ∈ S, ∀ g ∈ c.comparisonGroups, ((g.methods).map (fun m => m.name)).Nodup) →
        (∀ c ∈ S, ∀ g ∈ c.comparisonGroups, ∀ m ∈ g.methods, m.mean_us ≠ some 0) →
        regression_summary S S = .ok ([], [])) := by
  constructor
  · intro g row hrow v hv
    rw [html_data_table_regression] at hrow
    obtain ⟨n, _, rfl⟩ := List.mem_map.mp hrow
    have hb : (regression_row g g n).bl_mean = some v := hv
    have hp : (if v ≠ 0 then (v - v) / v * 100 else 0) = 0 := by
      by_cases hvz : v ≠ 0
      · rw [if_pos hvz, sub_self, zero_div, zero_mul]
      · rw [if_neg hvz]
    refine ⟨?_, ?_, ?_⟩
    · rw [(regRow_tri g g n).2.1, hb, hv, temporal_fields_delta, sub_self]
      decide
    · rw [(regRow_tri g g n).2.2, hb, hv, temporal_fields_pct, hp]
      decide
    · rw [(regRow_tri g g n).1, hb, hv, temporal_fields_class, hp]
      norm_num
  · intro S h1 h2 h3 h4
    exact regression_summary_self_aux S h1 h2 h3 h4 S (fun x hx => hx)

/-- Witness for C7's amended statement: a concrete nonzero self-comparison
yields the empty summary. -/
theorem C7_self_comparison_amended_witness :
    regression_summary [c7NzC] [c7NzC] = .ok ([], []) :=
  C7_self_comparison_amended.2 [c7NzC] (by decide) (by decide) (by decide) (by decide)
